import Mathlib

/-!
Verification model of the vent-pdf repository.

The three source files (inject_wind_to_pdf_mixed.py, inject_wind_to_pdf_openmeteo.py,
inject_wind_to_pdf_meteofrance.py) share their core logic; the mixed file is the most
complete and is the one claimed against.  The Python code is shallowly embedded here:

* Python floats are modelled as rationals (every finite IEEE double is a rational, and
  none of the claimed properties depend on rounding of binary floating point);
* Python ints are modelled as integers;
* exception-raising upstream calls are modelled as `Except Unit` inputs: an
  `Except.error` input is an upstream call that raised, and a function that does not
  wrap the call in try/except must propagate that `Except.error` in its result;
* the provider payloads (JSON dicts, forecast step dicts) are modelled as association
  lists of optional values, where a value of `none` models JSON null and a present
  value is tagged with whether the Python float() conversion succeeds on it; the dt
  member of a forecast step is likewise tagged with whether the unguarded int()
  conversion succeeds on it.
-/

/-! ### Compass conversion (deg_to_compass, all three files) -/

/-- The fixed table of 16 French compass abbreviations, with O for west. -/
def compassLabels : List String :=
  ["N", "NNE", "NE", "ENE", "E", "ESE", "SE", "SSE",
   "S", "SSO", "SO", "OSO", "O", "ONO", "NO", "NNO"]

/-- Python int() on a float truncates toward zero. -/
def pyInt (q : ℚ) : ℤ :=
  if q < 0 then ⌈q⌉ else ⌊q⌋

/-- Index computation of deg_to_compass: ix = int((deg / 22.5) + 0.5) % 16.
Python % on ints with positive modulus matches Int.emod. -/
def compassIndex (deg : ℚ) : ℤ :=
  pyInt (deg / 22.5 + 0.5) % 16

/-- deg_to_compass from the source: arr[ix].  The default of getD is never used
because the index is proved to lie in range. -/
def deg_to_compass (deg : ℚ) : String :=
  compassLabels.getD (compassIndex deg).toNat ""

/-! ### Open-Meteo realtime source (fetch_openmeteo_current, mixed file) -/

/-- The "current" object of the Open-Meteo response; a field of none models a missing
or null JSON member. -/
structure OMCurrent where
  wind_speed_10m : Option ℚ
  wind_direction_10m : Option ℚ
  time : Option String
deriving DecidableEq

/-- fetch_openmeteo_current: the whole network/parse try block is modelled by the
`Except Unit (Option OMCurrent)` input, where `Except.error` is a raised exception
(caught by the except branch of the source) and `Except.ok none` is a response whose
"current" member is missing (the code substitutes an empty dict).  Either wind field
missing makes the whole result (none, none, none). -/
def fetch_openmeteo_current (upstream : Except Unit (Option OMCurrent)) :
    Option ℚ × Option ℚ × Option String :=
  match upstream with
  | Except.error _ => (none, none, none)
  | Except.ok resp =>
      let cur := resp.getD ⟨none, none, none⟩
      match cur.wind_speed_10m, cur.wind_direction_10m with
      | some s, some d => (some s, some d, cur.time)
      | _, _ => (none, none, none)

/-! ### Météo-France forecast source (mf_fetch_near_now_wind_latlon, mixed file) -/

/-- A value stored under a probed key of a forecast step: either a value on which the
Python float() conversion succeeds with the given rational, or one on which float()
raises. -/
inductive MFNum where
  | num (q : ℚ)
  | nonnum
deriving DecidableEq

/-- The value stored under the "dt" key of a delivered forecast step: either a value
on which the Python int() conversion succeeds with the given integer, or one on
which int() raises (a present-but-null dt raises TypeError, a non-numeric dt raises
ValueError; neither conversion is guarded in the source). -/
inductive MFDt where
  | num (n : ℤ)
  | nonnum
deriving DecidableEq

/-- A forecast step dict as delivered by the provider.  dt is the "dt" member when
the key is present; fields are the probed top-level members (a value of none models
JSON null); wind is the "wind" sub-object when present and a dict. -/
structure MFRawStep where
  dt : Option MFDt
  fields : List (String × Option MFNum)
  wind : Option (List (String × Option MFNum))
deriving DecidableEq

/-- A forecast step whose dt conversion has succeeded: the view of a delivered step
on which the nearest-step selection operates, dt being the converted integer
timestamp when the key was present; fields and wind are carried over verbatim. -/
structure MFStep where
  dt : Option ℤ
  fields : List (String × Option MFNum)
  wind : Option (List (String × Option MFNum))
deriving DecidableEq

/-- The unguarded int() conversion of the dt member of one step.  The getD default
of s.get("dt", now) applies only to an absent key and is supplied at the use sites;
a present dt on which int() raises propagates the exception. -/
def intStepDt (s : MFRawStep) : Except Unit MFStep :=
  match s.dt with
  | none => Except.ok ⟨none, s.fields, s.wind⟩
  | some (MFDt.num n) => Except.ok ⟨some n, s.fields, s.wind⟩
  | some MFDt.nonnum => Except.error ()

/-- The dt conversions of a whole delivered step list.  Python evaluates
int(s.get("dt", now)) inside the key of min, which consumes the entire list, so
hoisting the conversions before the fold is result-equivalent: the selection raises
exactly when some delivered step has a present dt on which int() raises, and the
error value carries no data. -/
def intStepsDt : List MFRawStep → Except Unit (List MFStep)
  | [] => Except.ok []
  | s :: ss =>
      match intStepDt s with
      | Except.error e => Except.error e
      | Except.ok c =>
          match intStepsDt ss with
          | Except.error e => Except.error e
          | Except.ok cs => Except.ok (c :: cs)

/-- Ordered top-level speed key aliases of the source. -/
def speedKeys : List String :=
  ["wind10m", "wind_speed_10m", "windspeed10m", "wind_speed", "WindSpeed"]

/-- Ordered top-level direction key aliases of the source. -/
def degKeys : List String :=
  ["dirwind10m", "wind_direction_10m", "winddir10m", "wind_direction", "WindDirection"]

/-- Ordered speed key aliases of the "wind" sub-object. -/
def windSpeedKeys : List String :=
  ["speed", "speed10m", "v"]

/-- Ordered direction key aliases of the "wind" sub-object. -/
def windDegKeys : List String :=
  ["dir", "direction", "d"]

/-- One probing loop of the source: for k in keys, if k present and the value is not
None, try float(value) and stop at the first success; a float() failure or a missing
or None value falls through to the next key. -/
def probeKeys (keys : List String) (fields : List (String × Option MFNum)) : Option ℚ :=
  match keys with
  | [] => none
  | k :: ks =>
      match fields.lookup k with
      | some (some (MFNum.num q)) => some q
      | _ => probeKeys ks fields

/-- Speed extraction of the source: top-level aliases first, then (iff still none and
the step has a "wind" dict) the sub-object aliases. -/
def extractSpeedRaw (best : MFStep) : Option ℚ :=
  match probeKeys speedKeys best.fields with
  | some q => some q
  | none =>
      match best.wind with
      | some w => probeKeys windSpeedKeys w
      | none => none

/-- Direction extraction of the source, independent of and analogous to the speed
extraction. -/
def extractDegRaw (best : MFStep) : Option ℚ :=
  match probeKeys degKeys best.fields with
  | some q => some q
  | none =>
      match best.wind with
      | some w => probeKeys windDegKeys w
      | none => none

/-- Unit heuristic of the source: if speed is not None and speed < 40 then
speed = speed * 3.6. -/
def applyUnitHeuristic : Option ℚ → Option ℚ
  | none => none
  | some v => if v < 40 then some (v * 3.6) else some v

/-- Sort key of the nearest-step selection: abs(int(s.get("dt", now)) - now). -/
def stepKey (now : ℤ) (s : MFStep) : ℕ :=
  (s.dt.getD now - now).natAbs

/-- Left fold of Python min with a key function: keeps the earlier element unless a
strictly smaller key appears. -/
def minFrom {α : Type} (key : α → ℕ) (x : α) : List α → α
  | [] => x
  | y :: ys => minFrom key (if key y < key x then y else x) ys

/-- Python min(iterable, key=...) over a possibly empty list: none on the empty list
(where Python would raise, a case the source guards against), otherwise the first
element with minimal key. -/
def pyMin {α : Type} (key : α → ℕ) : List α → Option α
  | [] => none
  | x :: xs => some (minFrom key x xs)

/-- best = min(steps, key=lambda s: abs(int(s.get("dt", now)) - now)). -/
def nearestStep (steps : List MFStep) (now : ℤ) : Option MFStep :=
  pyMin (stepKey now) steps

/-- mf_fetch_near_now_wind_latlon of the mixed file.  The upstream
client.get_forecast call is NOT wrapped in try/except in the source, so a raised
exception (an `Except.error` input) propagates; `Except.ok []` covers both a missing
forecast attribute and an empty step list (`if not steps`).  The int() conversions
of the dt members (evaluated inside the key of min and again in the return) are
likewise unguarded, so a delivered step whose dt is present but null or non-numeric
makes the function raise.  The timezone component of the source result is
independent of the wind fields and is omitted; the result is (speed, deg, step_dt). -/
def mf_fetch_near_now_wind_latlon (upstream : Except Unit (List MFRawStep))
    (now : ℤ) :
    Except Unit (Option ℚ × Option ℚ × Option ℤ) :=
  match upstream with
  | Except.error e => Except.error e
  | Except.ok raw =>
      match intStepsDt raw with
      | Except.error e => Except.error e
      | Except.ok steps =>
          match nearestStep steps now with
          | none => Except.ok (none, none, none)
          | some best =>
              Except.ok (applyUnitHeuristic (extractSpeedRaw best),
                extractDegRaw best, some (best.dt.getD now))

/-! ### Source fallback chain (main of the mixed file, lines 209-219) -/

/-- The fallback logic of main: fetch Open-Meteo; if either field is None, use the
Météo-France pair only when both its fields are present.  spd2 and deg2 are the
fields of the already computed forecast result. -/
def sourceFallbackChain (rt : Except Unit (Option OMCurrent)) (spd2 deg2 : Option ℚ) :
    Option ℚ × Option ℚ × Option String :=
  let r := fetch_openmeteo_current rt
  let spd := r.1
  let deg := r.2.1
  let source := if spd.isSome && deg.isSome then some ("OMF") else none
  if spd.isNone || deg.isNone then
    match spd2, deg2 with
    | some s2, some d2 => (some s2, some d2, some ("MF"))
    | _, _ => (spd, deg, source)
  else
    (spd, deg, source)

/-- Modelled from the specification, for comparison with the code: a Realtime
upstream result is complete exactly when it is a non-raising response whose current
object carries both wind fields; the complete pair is returned wholesale. -/
def omComplete : Except Unit (Option OMCurrent) → Option (ℚ × ℚ)
  | Except.ok (some cur) =>
      match cur.wind_speed_10m, cur.wind_direction_10m with
      | some s, some d => some (s, d)
      | _, _ => none
  | _ => none

/-! ### Location resolution (main of the mixed file, lines 200-202) -/

/-- A character of the command-line identifier, in terms of its NFD decomposition: a
base character plus its combining marks (the category Mn characters that NFD
normalization splits off).  This models the behaviour of the unicodedata library
used by strip_accents. -/
structure UChar where
  base : Char
  marks : List Char
deriving DecidableEq

/-- An element of the NFD normal form: a base character or a combining mark. -/
inductive NChar where
  | basic (c : Char)
  | mark (c : Char)
deriving DecidableEq

/-- unicodedata.normalize("NFD", s): each character decomposes into its base followed
by its combining marks. -/
def nfdNormalize (s : List UChar) : List NChar :=
  s.flatMap (fun u => NChar.basic u.base :: u.marks.map NChar.mark)

/-- unicodedata.category(c) != "Mn" for the two shapes of NFD elements. -/
def notMn : NChar → Bool
  | NChar.basic _ => true
  | NChar.mark _ => false

/-- strip_accents: drop the category Mn characters of the NFD normal form. -/
def strip_accents (s : List UChar) : List Char :=
  ((nfdNormalize s).filter notMn).filterMap
    (fun c => match c with | NChar.basic b => some b | NChar.mark b => some b)

/-- Python str.strip(): remove leading and trailing whitespace. -/
def pyStrip (l : List Char) : List Char :=
  ((l.dropWhile Char.isWhitespace).reverse.dropWhile Char.isWhitespace).reverse

/-- key = strip_accents(args.ville).lower().strip(). -/
def normalizeKey (s : List UChar) : List Char :=
  pyStrip ((strip_accents s).map Char.toLower)

/-- A row of the internal city table. -/
structure CityMeta where
  name : String
  lat : ℚ
  lon : ℚ
  tz : String
deriving DecidableEq

/-- CITY_MAP of the source. -/
def CITY_MAP : List (String × CityMeta) :=
  [("reims", ⟨"Reims", 49.2583, 4.0317, "Europe/Paris"⟩),
   ("epernay", ⟨"Epernay", 49.04, 3.96, "Europe/Paris"⟩)]

/-- The identifier as typed on the command line (base characters with their marks
recomposed), used inside the error message. -/
def renderVille (s : List UChar) : String :=
  String.join (s.map (fun u => String.mk (u.base :: u.marks)))

/-- The ValueError message of the source: it quotes the identifier and lists the
supported keys of CITY_MAP. -/
def unsupportedMsg (ville : List UChar) : String :=
  "Ville non supportée : \"" ++ renderVille ville ++ "\". Dispo : " ++
    String.intercalate (", ") (CITY_MAP.map Prod.fst)

/-- The city-resolution stage of main: normalize, then exact lookup; an unknown key
raises ValueError with the message above. -/
def resolveCity (ville : List UChar) : Except String CityMeta :=
  match CITY_MAP.lookup (String.mk (normalizeKey ville)) with
  | some meta => Except.ok meta
  | none => Except.error (unsupportedMsg ville)

/-- Document side effects of main, in order: fitz.open on the input, doc.save on the
output. -/
inductive Effect where
  | openInput
  | saveOutput
deriving DecidableEq

/-- How a run of main can abort: the ValueError of the city lookup, or an uncaught
exception escaping from the Météo-France fetch. -/
inductive RunError where
  | locationNotFound (msg : String)
  | uncaughtException
deriving DecidableEq

/-- main of the mixed file, up to the data it threads: city resolution first, then
the realtime fetch, then (only when a field is missing) the forecast fetch, then the
document effects.  The rendered date and lines are omitted; the wind triple produced
by the fallback chain and the ordered document effects are returned.  An abort
carries no effects: the input document is opened only on the success path. -/
def mainRun (ville : List UChar) (rt : Except Unit (Option OMCurrent))
    (fcUp : Except Unit (List MFRawStep)) (now : ℤ) :
    Except RunError ((Option ℚ × Option ℚ × Option String) × List Effect) :=
  match resolveCity ville with
  | Except.error msg => Except.error (RunError.locationNotFound msg)
  | Except.ok _ =>
      let r := fetch_openmeteo_current rt
      if r.1.isNone || r.2.1.isNone then
        match mf_fetch_near_now_wind_latlon fcUp now with
        | Except.error _ => Except.error RunError.uncaughtException
        | Except.ok mr =>
            Except.ok (sourceFallbackChain rt mr.1 mr.2.1,
              [Effect.openInput, Effect.saveOutput])
      else
        Except.ok (sourceFallbackChain rt none none,
          [Effect.openInput, Effect.saveOutput])

/-! ### Cartouche layout (draw_cartouche, mixed file lines 154-165) -/

/-- The inner padding p = 6 of draw_cartouche. -/
def cartouche_padding : ℚ := 6

/-- The body-line loop of draw_cartouche: starting baseline, then baseline += line_h
for each further line. -/
def bodyBaselinesLoop (baseline line_h : ℚ) : ℕ → List ℚ
  | 0 => []
  | Nat.succ n => baseline :: bodyBaselinesLoop (baseline + line_h) line_h n

/-- The baselines draw_cartouche hands to the line renderer, in order: the title
baseline inner.y0 + title_fontsize, then nBody body baselines starting at
inner.y0 + (title_fontsize + 5.0) + body_fontsize with step body_fontsize + 5.0. -/
def draw_cartouche_baselines (y title_fontsize body_fontsize : ℚ) (nBody : ℕ) :
    List ℚ :=
  let inner_y0 := y + cartouche_padding
  let line_h := body_fontsize + 5
  (inner_y0 + title_fontsize) ::
    bodyBaselinesLoop (inner_y0 + (title_fontsize + 5) + body_fontsize) line_h nBody

/-- Modelled from the specification, for comparison with the code: title baseline at
box.y + padding + title_font_size, and the i-th body baseline exactly i + 1 fixed
leadings of body_font_size + 5.0 below it, the title height allowance appearing
once. -/
def spec_cartouche_baselines (y title_fontsize body_fontsize : ℚ) (nBody : ℕ) :
    List ℚ :=
  let titleBase := y + cartouche_padding + title_fontsize
  titleBase ::
    (List.range nBody).map
      (fun i : ℕ => titleBase + ((i : ℚ) + 1) * (body_fontsize + 5))

/-! ### Per-line rendering cascade (draw_line_right, mixed file lines 130-140) -/

/-- Where a line finally lands: flowed by the backend inside a sub-rectangle
(structuredBox, a stage the specification describes), drawn at the measured
right-aligned position with a named font, or drawn blindly at a fixed offset. -/
inductive LinePlacement where
  | structuredBox (x : ℚ)
  | measuredDraw (font : String) (x : ℚ)
  | blindFallback (x : ℚ)
deriving DecidableEq

/-- The font priority list of the source. -/
def draw_line_right_fonts : List String :=
  ["Times-Roman", "helv"]

/-- The font loop of draw_line_right: the first font whose measurement succeeds
draws at right_x - w; when every font fails the final insert draws at
right_x - 200.  A measurement attempt returning none models get_text_length
raising for that font; insert_text on a valid page with a built-in font is modelled
as succeeding. -/
def drawLineRightAux (attempt : String → Option ℚ) (right_x : ℚ) :
    List String → LinePlacement
  | [] => LinePlacement.blindFallback (right_x - 200)
  | f :: fs =>
      match attempt f with
      | some w => LinePlacement.measuredDraw f (right_x - w)
      | none => drawLineRightAux attempt right_x fs

/-- draw_line_right of the source. -/
def draw_line_right (attempt : String → Option ℚ) (right_x : ℚ) : LinePlacement :=
  drawLineRightAux attempt right_x draw_line_right_fonts

/-- Modelled from the specification, for comparison with the code: the cascade the
specification describes first asks the backend to flow the line inside a
sub-rectangle (structured input of some x is a successful StructuredBox stage) and
only on its failure falls through to the measured cascade. -/
def spec_cascade_line (structured : Option ℚ) (attempt : String → Option ℚ)
    (right_x : ℚ) : LinePlacement :=
  match structured with
  | some x => LinePlacement.structuredBox x
  | none => drawLineRightAux attempt right_x draw_line_right_fonts

/-- Whether a placement came from a StructuredBox stage. -/
def isStructuredPlacement : LinePlacement → Bool
  | LinePlacement.structuredBox _ => true
  | _ => false

/-! ### Helper lemmas -/

/-- Unfolding of find? on a cons cell. -/
theorem find?_cons_eq {α : Type} (p : α → Bool) (a : α) (l : List α) :
    (a :: l).find? p = if p a then some a else l.find? p := by
  cases hpa : p a <;> simp [List.find?, hpa]

/-- The Python min fold returns a member of the list. -/
theorem minFrom_mem {α : Type} (key : α → ℕ) :
    ∀ (xs : List α) (x : α), minFrom key x xs ∈ x :: xs := by
  intro xs
  induction xs with
  | nil => intro x; simp [minFrom]
  | cons y ys ih =>
      intro x
      have h := ih (if key y < key x then y else x)
      rcases List.mem_cons.mp h with h1 | h1
      · by_cases hc : key y < key x
        · simp only [minFrom]
          rw [if_pos hc] at h1 ⊢
          simp [h1]
        · simp only [minFrom]
          rw [if_neg hc] at h1 ⊢
          simp [h1]
      · simp only [minFrom]
        by_cases hc : key y < key x
        · rw [if_pos hc] at h1 ⊢
          simp [List.mem_cons.mpr (Or.inr h1)]
        · rw [if_neg hc] at h1 ⊢
          simp [List.mem_cons.mpr (Or.inr h1)]

/-- The key of the Python min fold is a lower bound of the keys of the list. -/
theorem minFrom_le {α : Type} (key : α → ℕ) :
    ∀ (xs : List α) (x : α) (s : α), s ∈ x :: xs →
      key (minFrom key x xs) ≤ key s := by
  intro xs
  induction xs with
  | nil =>
      intro x s hs
      rcases List.mem_cons.mp hs with h | h
      · subst h; simp [minFrom]
      · cases h
  | cons y ys ih =>
      intro x s hs
      have hz : key (minFrom key (if key y < key x then y else x) ys) ≤
          key (if key y < key x then y else x) :=
        ih (if key y < key x then y else x) _ (List.mem_cons_self _ _)
      have hzx : key (if key y < key x then y else x) ≤ key x := by
        by_cases hc : key y < key x
        · rw [if_pos hc]; exact Nat.le_of_lt hc
        · rw [if_neg hc]
      have hzy : key (if key y < key x then y else x) ≤ key y := by
        by_cases hc : key y < key x
        · rw [if_pos hc]
        · rw [if_neg hc]; exact Nat.le_of_not_lt hc
      rcases List.mem_cons.mp hs with h | h
      · subst h
        simp only [minFrom]
        exact le_trans hz hzx
      · rcases List.mem_cons.mp h with h1 | h1
        · subst h1
          simp only [minFrom]
          exact le_trans hz hzy
        · simp only [minFrom]
          exact ih (if key y < key x then y else x) s (List.mem_cons.mpr (Or.inr h1))

/-- The Python min fold returns the FIRST element attaining the minimal key: it
equals find? with the predicate of having the key of the fold result. -/
theorem minFrom_first {α : Type} (key : α → ℕ) :
    ∀ (xs : List α) (x : α),
      (x :: xs).find? (fun s => key s == key (minFrom key x xs)) =
        some (minFrom key x xs) := by
  intro xs
  induction xs with
  | nil =>
      intro x
      simp [minFrom, List.find?]
  | cons y ys ih =>
      intro x
      by_cases hc : key y < key x
      · have hm : minFrom key x (y :: ys) = minFrom key y ys := by
          simp only [minFrom]
          rw [if_pos hc]
        have hle : key (minFrom key y ys) ≤ key y :=
          minFrom_le key ys y y (List.mem_cons_self _ _)
        rw [hm, find?_cons_eq]
        have hx : (key x == key (minFrom key y ys)) = false := by
          have hlt : key (minFrom key y ys) < key x := lt_of_le_of_lt hle hc
          simp [Nat.ne_of_gt hlt]
        rw [hx]
        simp only [Bool.false_eq_true, if_false]
        exact ih y
      · have hxy : key x ≤ key y := Nat.le_of_not_lt hc
        have hm : minFrom key x (y :: ys) = minFrom key x ys := by
          simp only [minFrom]
          rw [if_neg hc]
        rw [hm, find?_cons_eq]
        have ihx := ih x
        rw [find?_cons_eq] at ihx
        by_cases hpx : key x = key (minFrom key x ys)
        · have hxt : (key x == key (minFrom key x ys)) = true := by simp [hpx]
          rw [hxt] at ihx ⊢
          simpa using ihx
        · have hxf : (key x == key (minFrom key x ys)) = false := by simp [hpx]
          rw [hxf] at ihx ⊢
          simp only [Bool.false_eq_true, if_false] at ihx ⊢
          have hmin : key (minFrom key x ys) ≤ key x :=
            minFrom_le key ys x x (List.mem_cons_self _ _)
          have hylt : key (minFrom key x ys) < key y := by
            rcases lt_or_eq_of_le hmin with h | h
            · exact lt_of_lt_of_le h hxy
            · exact absurd h.symm hpx
          rw [find?_cons_eq]
          have hyf : (key y == key (minFrom key x ys)) = false := by
            simp [Nat.ne_of_gt hylt]
          rw [hyf]
          simp only [Bool.false_eq_true, if_false]
          exact ihx

/-- Closed form of the body-baseline loop. -/
theorem bodyBaselinesLoop_eq (line_h : ℚ) :
    ∀ (n : ℕ) (b : ℚ),
      bodyBaselinesLoop b line_h n =
        (List.range n).map (fun i : ℕ => b + (i : ℚ) * line_h) := by
  intro n
  induction n with
  | zero => intro b; simp [bodyBaselinesLoop]
  | succ m ih =>
      intro b
      rw [List.range_succ_eq_map]
      simp only [bodyBaselinesLoop, List.map_cons, List.map_map]
      refine List.cons_eq_cons.mpr ⟨by norm_num, ?_⟩
      rw [ih (b + line_h)]
      apply List.map_congr_left
      intro i _
      simp only [Function.comp_apply]
      push_cast
      ring

/-- An in-range getD hits a member of the list. -/
theorem getD_mem_of_lt {l : List String} {n : ℕ} (h : n < l.length) (d : String) :
    l.getD n d ∈ l := by
  rw [List.getD_eq_getElem?_getD, List.getElem?_eq_getElem h]
  exact List.getElem_mem h

/-- Decidable equality of Except results, used to evaluate the model on concrete
inputs. -/
instance exceptDecEq {E A : Type} [DecidableEq E] [DecidableEq A] :
    DecidableEq (Except E A) := fun a b =>
  match a, b with
  | Except.ok x, Except.ok y =>
      if h : x = y then isTrue (by rw [h])
      else isFalse (by intro hc; cases hc; exact h rfl)
  | Except.error x, Except.error y =>
      if h : x = y then isTrue (by rw [h])
      else isFalse (by intro hc; cases hc; exact h rfl)
  | Except.ok _, Except.error _ => isFalse (by intro hc; cases hc)
  | Except.error _, Except.ok _ => isFalse (by intro hc; cases hc)

/-! ### Claim theorems -/

/-- Claim C10: deg_to_compass is total over every finite real input modelled as a
rational: the computed index int(deg / 22.5 + 0.5) mod 16 always lies in [0, 16), so
the function returns one of the 16 fixed labels for every input, including negative
degrees and degrees at or above 360. -/
theorem deg_to_compass_total :
    ∀ deg : ℚ, 0 ≤ compassIndex deg ∧ compassIndex deg < 16 ∧
      deg_to_compass deg ∈ compassLabels := by
  intro deg
  have h0 : (0 : ℤ) ≤ compassIndex deg := by
    unfold compassIndex
    exact Int.emod_nonneg _ (by norm_num)
  have h1 : compassIndex deg < 16 := by
    unfold compassIndex
    exact Int.emod_lt_of_pos _ (by norm_num)
  refine ⟨h0, h1, ?_⟩
  have hlen : compassLabels.length = 16 := by rfl
  have hn : (compassIndex deg).toNat < compassLabels.length := by
    rw [hlen]; omega
  exact getD_mem_of_lt hn _

/-- Claim C5: on [0, 360) the compass index of the code agrees with
round(d / 22.5) mod 16 (round half up, the reading the int(x + 0.5) idiom of the
source implements), the returned label is the entry of the fixed 16-label table at
that index, it is always one of the 16 labels, and deg 0 and deg 360 map to the same
label. -/
theorem deg_to_compass_range_spec :
    (∀ d : ℚ, 0 ≤ d → d < 360 →
      deg_to_compass d = compassLabels.getD (round (d / 22.5) % 16).toNat "" ∧
        deg_to_compass d ∈ compassLabels) ∧
    deg_to_compass 0 = deg_to_compass 360 := by
  constructor
  · intro d h0 _
    have hq : (0 : ℚ) ≤ d / 22.5 + 0.5 := by positivity
    have hpy : pyInt (d / 22.5 + 0.5) = round (d / 22.5) := by
      unfold pyInt
      rw [if_neg (not_lt.mpr hq), round_eq]
      norm_num
    constructor
    · unfold deg_to_compass compassIndex
      rw [hpy]
    · have h := deg_to_compass_total d
      exact h.2.2
  · have h1 : compassIndex 0 = 0 := by
      unfold compassIndex pyInt
      norm_num
    have h2 : compassIndex 360 = 0 := by
      unfold compassIndex pyInt
      norm_num
    unfold deg_to_compass
    rw [h1, h2]

/-- Witness for claim C5 at the concrete direction 45: both conclusions hold with the
hypotheses 0 ≤ 45 and 45 < 360 discharged. -/
theorem deg_to_compass_range_spec_witness :
    deg_to_compass 45 = compassLabels.getD (round ((45 : ℚ) / 22.5) % 16).toNat "" ∧
      deg_to_compass 45 ∈ compassLabels :=
  deg_to_compass_range_spec.1 45 (by norm_num) (by norm_num)

/-- Claim C1: the source fallback chain of main tries the Realtime source first and
the forecast source second, accepts the first source whose result has both fields,
and never merges fields across sources: for every pair of upstream results the
output is the complete Realtime pair tagged OMF, else the complete forecast pair
tagged MF, else (none, none) with no source tag. -/
theorem fallback_chain_priority :
    ∀ (rt : Except Unit (Option OMCurrent)) (spd2 deg2 : Option ℚ),
      sourceFallbackChain rt spd2 deg2 =
        match omComplete rt with
        | some sd => (some sd.1, some sd.2, some ("OMF"))
        | none =>
            match spd2, deg2 with
            | some s2, some d2 => (some s2, some d2, some ("MF"))
            | _, _ => (none, none, none) := by
  intro rt spd2 deg2
  match rt with
  | Except.error e =>
      cases spd2 <;> cases deg2 <;>
        simp [sourceFallbackChain, fetch_openmeteo_current, omComplete]
  | Except.ok none =>
      cases spd2 <;> cases deg2 <;>
        simp [sourceFallbackChain, fetch_openmeteo_current, omComplete]
  | Except.ok (some cur) =>
      obtain ⟨s1, d1, t1⟩ := cur
      cases s1 <;> cases d1 <;> cases spd2 <;> cases deg2 <;>
        simp [sourceFallbackChain, fetch_openmeteo_current, omComplete]

/-- Claim C3: the returned speed of the forecast source applies the unit heuristic
to the extracted speed: multiplied by 3.6 when strictly below 40, unchanged
otherwise; through the full fetch an extracted speed of 18 yields 64.8 and an
extracted speed of 55 yields 55. -/
theorem unit_heuristic_spec :
    (∀ v : ℚ, applyUnitHeuristic (some v) =
      some (if v < 40 then v * 3.6 else v)) ∧
    (∀ (steps : List MFRawStep) (now : ℤ),
      mf_fetch_near_now_wind_latlon (Except.ok steps) now =
        match intStepsDt steps with
        | Except.error e => Except.error e
        | Except.ok csteps =>
            match nearestStep csteps now with
            | none => Except.ok (none, none, none)
            | some best =>
                Except.ok (applyUnitHeuristic (extractSpeedRaw best),
                  extractDegRaw best, some (best.dt.getD now))) ∧
    mf_fetch_near_now_wind_latlon
        (Except.ok [⟨some (MFDt.num 0), [("wind10m", some (MFNum.num 18))], none⟩])
        0 =
      Except.ok (some (64.8 : ℚ), none, some 0) ∧
    mf_fetch_near_now_wind_latlon
        (Except.ok [⟨some (MFDt.num 0), [("wind10m", some (MFNum.num 55))], none⟩])
        0 =
      Except.ok (some (55 : ℚ), none, some 0) := by
  refine ⟨?_, ?_, ?_, ?_⟩
  · intro v
    by_cases h : v < 40 <;> simp [applyUnitHeuristic, h]
  · intro steps now
    rfl
  · have h1 : mf_fetch_near_now_wind_latlon
        (Except.ok [⟨some (MFDt.num 0), [("wind10m", some (MFNum.num 18))], none⟩])
        0 =
        Except.ok (applyUnitHeuristic (some 18), none, some 0) := rfl
    have h2 : applyUnitHeuristic (some 18) = some (64.8 : ℚ) := by
      unfold applyUnitHeuristic
      norm_num
    rw [h1, h2]
  · have h1 : mf_fetch_near_now_wind_latlon
        (Except.ok [⟨some (MFDt.num 0), [("wind10m", some (MFNum.num 55))], none⟩])
        0 =
        Except.ok (applyUnitHeuristic (some 55), none, some 0) := rfl
    have h2 : applyUnitHeuristic (some 55) = some (55 : ℚ) := by
      unfold applyUnitHeuristic
      norm_num
    rw [h1, h2]

/-- Evaluation of the Python min fold on a three-element tail pattern. -/
theorem minFrom_three {α : Type} (key : α → ℕ) (a b c : α)
    (h1 : key b < key a) (h2 : ¬ key c < key b) :
    minFrom key a [b, c] = b := by
  simp only [minFrom]
  rw [if_pos h1, if_neg h2]

/-- Claim C4: on a non-empty step list the nearest-step selection returns the first
step whose distance to now equals the minimal distance (so it minimizes the
distance, with ties resolved to the first-encountered step); the minimal distance is
a lower bound of every distance of the list; and on steps at now - 600, now - 30 and
now + 500 the now - 30 step is selected. -/
theorem nearest_step_min_first :
    (∀ (x : MFStep) (xs : List MFStep) (now : ℤ),
      nearestStep (x :: xs) now =
        (x :: xs).find?
          (fun s => stepKey now s == stepKey now (minFrom (stepKey now) x xs))) ∧
    (∀ (x : MFStep) (xs : List MFStep) (now : ℤ) (s : MFStep), s ∈ x :: xs →
      stepKey now (minFrom (stepKey now) x xs) ≤ stepKey now s) ∧
    (∀ (now : ℤ) (f1 : List (String × Option MFNum))
        (w1 : Option (List (String × Option MFNum)))
        (f2 : List (String × Option MFNum))
        (w2 : Option (List (String × Option MFNum)))
        (f3 : List (String × Option MFNum))
        (w3 : Option (List (String × Option MFNum))),
      nearestStep [⟨some (now - 600), f1, w1⟩, ⟨some (now - 30), f2, w2⟩,
        ⟨some (now + 500), f3, w3⟩] now = some ⟨some (now - 30), f2, w2⟩) := by
  refine ⟨?_, ?_, ?_⟩
  · intro x xs now
    simp only [nearestStep, pyMin]
    exact (minFrom_first (stepKey now) xs x).symm
  · intro x xs now s hs
    exact minFrom_le (stepKey now) xs x s hs
  · intro now f1 w1 f2 w2 f3 w3
    have k1 : stepKey now ⟨some (now - 600), f1, w1⟩ = 600 := by
      simp only [stepKey, Option.getD_some]
      omega
    have k2 : stepKey now ⟨some (now - 30), f2, w2⟩ = 30 := by
      simp only [stepKey, Option.getD_some]
      omega
    have k3 : stepKey now ⟨some (now + 500), f3, w3⟩ = 500 := by
      simp only [stepKey, Option.getD_some]
      omega
    have h1 : stepKey now ⟨some (now - 30), f2, w2⟩ <
        stepKey now ⟨some (now - 600), f1, w1⟩ := by
      rw [k1, k2]; norm_num
    have h2 : ¬ stepKey now ⟨some (now + 500), f3, w3⟩ <
        stepKey now ⟨some (now - 30), f2, w2⟩ := by
      rw [k2, k3]; norm_num
    simp only [nearestStep, pyMin]
    rw [minFrom_three (stepKey now) _ _ _ h1 h2]

/-- Witness for claim C4: the lower-bound conjunct at a concrete two-step list, with
the membership hypothesis discharged, and the concrete three-step selection at
now = 1000. -/
theorem nearest_step_min_first_witness :
    stepKey 1000 (minFrom (stepKey 1000)
        (⟨some 400, [], none⟩ : MFStep) [⟨some 970, [], none⟩]) ≤
      stepKey 1000 (⟨some 970, [], none⟩ : MFStep) ∧
    nearestStep [⟨some (1000 - 600), [], none⟩, ⟨some (1000 - 30), [], none⟩,
        ⟨some (1000 + 500), [], none⟩] 1000 = some ⟨some (1000 - 30), [], none⟩ :=
  ⟨nearest_step_min_first.2.1 ⟨some 400, [], none⟩ [⟨some 970, [], none⟩] 1000
      ⟨some 970, [], none⟩ (by decide),
    nearest_step_min_first.2.2 1000 [] none [] none [] none⟩

/-- Claim C9: a step without a dt field is given the current time as timestamp and
thus distance zero, so whenever such a step is present the selection returns the
first step at distance zero, and distance zero means exactly dt missing or dt equal
to now. -/
theorem nearest_step_missing_dt (steps : List MFStep) (now : ℤ)
    (h : ∃ s ∈ steps, s.dt = none) :
    nearestStep steps now = steps.find? (fun s => stepKey now s == 0) ∧
    (∀ s : MFStep, stepKey now s = 0 ↔ (s.dt = none ∨ s.dt = some now)) := by
  constructor
  · cases steps with
    | nil =>
        obtain ⟨s, hs, _⟩ := h
        cases hs
    | cons x xs =>
        obtain ⟨s0, hs0, hdt⟩ := h
        have hk0 : stepKey now s0 = 0 := by
          simp [stepKey, hdt]
        have hmle : stepKey now (minFrom (stepKey now) x xs) ≤ 0 := by
          rw [← hk0]
          exact minFrom_le (stepKey now) xs x s0 hs0
        have hm0 : stepKey now (minFrom (stepKey now) x xs) = 0 :=
          Nat.le_zero.mp hmle
        have hf := minFrom_first (stepKey now) xs x
        rw [hm0] at hf
        simp only [nearestStep, pyMin]
        exact hf.symm
  · intro s
    cases hdt : s.dt with
    | none =>
        simp [stepKey, hdt]
    | some d =>
        simp only [stepKey, hdt, Option.getD_some]
        constructor
        · intro hz
          right
          have : d = now := by omega
          rw [this]
        · intro hz
          rcases hz with hz | hz
          · cases hz
          · have : d = now := by injection hz
            omega

/-- Witness for claim C9: a concrete list holding a step without dt; the selection
returns that step (the first at distance zero) although a later step has a genuine
timestamp only 30 from now. -/
theorem nearest_step_missing_dt_witness :
    nearestStep [⟨some 1100, [], none⟩, ⟨none, [], none⟩, ⟨some 970, [], none⟩]
        1000 =
      [(⟨some 1100, [], none⟩ : MFStep), ⟨none, [], none⟩,
        ⟨some 970, [], none⟩].find? (fun s => stepKey 1000 s == 0) :=
  (nearest_step_missing_dt
      [⟨some 1100, [], none⟩, ⟨none, [], none⟩, ⟨some 970, [], none⟩] 1000
      ⟨⟨none, [], none⟩, by decide, rfl⟩).1

/-- Claim C6: main normalizes the identifier (diacritics stripped, case folded,
whitespace stripped) and performs an exact lookup; an unknown normalized key makes
the run abort with the ValueError message listing the supported keys, before the
weather stage runs and before the input document is opened (the error result of
mainRun carries no document effect). -/
theorem location_not_found_aborts (ville : List UChar)
    (rt : Except Unit (Option OMCurrent)) (fcUp : Except Unit (List MFRawStep))
    (now : ℤ) (h : CITY_MAP.lookup (String.mk (normalizeKey ville)) = none) :
    resolveCity ville = Except.error (unsupportedMsg ville) ∧
    mainRun ville rt fcUp now =
      Except.error (RunError.locationNotFound (unsupportedMsg ville)) := by
  have hres : resolveCity ville = Except.error (unsupportedMsg ville) := by
    unfold resolveCity
    rw [h]
  refine ⟨hres, ?_⟩
  unfold mainRun
  rw [hres]

/-- Witness for claim C6: the identifier Paris normalizes to paris, which is not in
the city table, so the run aborts with the listing message and no effects. -/
theorem location_not_found_aborts_witness :
    mainRun [⟨'P', []⟩, ⟨'a', []⟩, ⟨'r', []⟩, ⟨'i', []⟩, ⟨'s', []⟩]
        (Except.error ()) (Except.ok []) 0 =
      Except.error (RunError.locationNotFound
        (unsupportedMsg [⟨'P', []⟩, ⟨'a', []⟩, ⟨'r', []⟩, ⟨'i', []⟩, ⟨'s', []⟩])) :=
  (location_not_found_aborts
      [⟨'P', []⟩, ⟨'a', []⟩, ⟨'r', []⟩, ⟨'i', []⟩, ⟨'s', []⟩]
      (Except.error ()) (Except.ok []) 0 (by decide)).2

/-- Claim C7: the baselines of draw_cartouche, a pure function of its inputs, are
the title baseline at box.y + padding + title_fontsize followed by body baselines
whose i-th entry sits exactly i + 1 leadings of body_fontsize + 5.0 below the title
baseline: the first body baseline is one leading below the title baseline (the title
height allowance counted once) and each later baseline is one leading below its
predecessor. -/
theorem cartouche_baseline_layout :
    ∀ (y title_fontsize body_fontsize : ℚ) (nBody : ℕ),
      draw_cartouche_baselines y title_fontsize body_fontsize nBody =
        spec_cartouche_baselines y title_fontsize body_fontsize nBody := by
  intro y tf bf n
  unfold draw_cartouche_baselines spec_cartouche_baselines
  refine List.cons_eq_cons.mpr ⟨rfl, ?_⟩
  rw [bodyBaselinesLoop_eq]
  apply List.map_congr_left
  intro i _
  ring

/-- Counterexample to claim C8: the per-line renderer does not begin with a
StructuredBox stage.  With a backend whose structured flow would succeed and whose
first font measures successfully, the cascade the specification describes places the
line via StructuredBox while the code places it via MeasuredDraw with the first
font. -/
theorem line_cascade_counterexample :
    spec_cascade_line (some 100) (fun _ => some 50) 300 =
      LinePlacement.structuredBox 100 ∧
    draw_line_right (fun _ => some 50) 300 =
      LinePlacement.measuredDraw ("Times-Roman") 250 ∧
    draw_line_right (fun _ => some 50) 300 ≠
      spec_cascade_line (some 100) (fun _ => some 50) 300 := by
  have h : (300 : ℚ) - 50 = 250 := by norm_num
  refine ⟨rfl, ?_, ?_⟩
  · simp [draw_line_right, drawLineRightAux, draw_line_right_fonts, h]
  · simp [draw_line_right, drawLineRightAux, draw_line_right_fonts, spec_cascade_line]

/-- Claim C8 as amended: the per-line renderer has no StructuredBox stage; it starts
at MeasuredDraw, drawing with the first font of the priority list whose measurement
succeeds at right_edge minus the measured width, then on exhaustion of both fonts
falls back to a blind draw at right_edge minus 200; it always produces a placement
and that placement is never a StructuredBox one. -/
theorem line_cascade_amended :
    (∀ (attempt : String → Option ℚ) (right_x : ℚ),
      draw_line_right attempt right_x =
        match attempt ("Times-Roman") with
        | some w => LinePlacement.measuredDraw ("Times-Roman") (right_x - w)
        | none =>
            match attempt ("helv") with
            | some w => LinePlacement.measuredDraw ("helv") (right_x - w)
            | none => LinePlacement.blindFallback (right_x - 200)) ∧
    (∀ (attempt : String → Option ℚ) (right_x : ℚ),
      isStructuredPlacement (draw_line_right attempt right_x) = false) := by
  constructor
  · intro attempt rx
    cases hA : attempt ("Times-Roman") with
    | some w => simp [draw_line_right, draw_line_right_fonts, drawLineRightAux, hA]
    | none =>
        cases hB : attempt ("helv") <;>
          simp [draw_line_right, draw_line_right_fonts, drawLineRightAux, hA, hB]
  · intro attempt rx
    cases hA : attempt ("Times-Roman") with
    | some w =>
        simp [draw_line_right, draw_line_right_fonts, drawLineRightAux, hA,
          isStructuredPlacement]
    | none =>
        cases hB : attempt ("helv") <;>
          simp [draw_line_right, draw_line_right_fonts, drawLineRightAux, hA, hB,
            isStructuredPlacement]
